import Mathlib

/- Verification development for the resumable route-enrichment pipeline of
`process_rural_urban_analysis_round1.py` and `fix_missing_path.py`
(swac-vis/west-africa-food-trade).

Modelling conventions.
Python floats are modelled as exact rationals (`ℚ`).  The code's
`perpendicular_distance` ends in a square root (`... ** 0.5`); the
Douglas-Peucker recursion only ever compares such square-rooted values with
each other and with the nonnegative tolerance `epsilon`, and `Real.sqrt` is
strictly monotone on nonnegatives, so the recursion is embedded with the
squared values (`pdistSq`) and the squared tolerance (`eps ^ 2`): for every
`eps ≥ 0` this takes exactly the branches the source takes.  The real-valued
distance itself is recovered as `perpendicular_distance = Real.sqrt ∘ pdistSq`.
Network I/O is modelled by an environment `env : ℕ → Attempt` giving the
outcome the `i`-th HTTP request of a fetch would have; a fetcher that never
retries reads only `env 0`.  Python dict fields that may be missing are
`Option`s; a present-but-empty `path` list is `some []` (falsy in Python),
which the source distinguishes from a missing key in one place
(`'path' in route` versus `'path' in route and route['path']`). -/

/-- A `[lon, lat]` coordinate pair (Python float pair, modelled exactly). -/
abbrev Point := ℚ × ℚ

/-- Squared value of `perpendicular_distance(point, line_start, line_end)` from
`simplify_path` (identical in `fix_missing_path.py` lines 15-26 and
`process_rural_urban_analysis_round1.py` lines 92-110): the source computes
`dx, dy`; if both are zero it returns the Euclidean distance to `line_start`;
otherwise it clamps the projection parameter `t` to `[0, 1]` and returns the
Euclidean distance to the projection.  This definition carries the value
before the final `** 0.5`. -/
def pdistSq (point line_start line_end : Point) : ℚ :=
  let x0 := point.1
  let y0 := point.2
  let x1 := line_start.1
  let y1 := line_start.2
  let x2 := line_end.1
  let y2 := line_end.2
  let dx := x2 - x1
  let dy := y2 - y1
  if dx = 0 ∧ dy = 0 then
    (x0 - x1) ^ 2 + (y0 - y1) ^ 2
  else
    let t := max 0 (min 1 (((x0 - x1) * dx + (y0 - y1) * dy) / (dx * dx + dy * dy)))
    let proj_x := x1 + t * dx
    let proj_y := y1 + t * dy
    (x0 - proj_x) ^ 2 + (y0 - proj_y) ^ 2

/-- The value the source's `perpendicular_distance` returns: the square root of
`pdistSq` (the source's `((x0 - proj_x)**2 + (y0 - proj_y)**2)**0.5`). -/
noncomputable def perpendicular_distance (point line_start line_end : Point) : ℝ :=
  Real.sqrt ((pdistSq point line_start line_end : ℚ) : ℝ)

/-- The unclamped projection parameter `((x0-x1)*dx + (y0-y1)*dy)/(dx*dx+dy*dy)`
of `point` onto the line through `line_start` and `line_end` (the quantity the
source clamps with `max(0, min(1, ...))`). -/
def projT (point line_start line_end : Point) : ℚ :=
  ((point.1 - line_start.1) * (line_end.1 - line_start.1) +
    (point.2 - line_start.2) * (line_end.2 - line_start.2)) /
   ((line_end.1 - line_start.1) * (line_end.1 - line_start.1) +
    (line_end.2 - line_start.2) * (line_end.2 - line_start.2))

/-- Modelled from the spec: the squared perpendicular distance of a point to
the infinite line through `line_start` and `line_end` (the textbook formula
`cross² / |d|²`).  This is the spec's reading of "perpendicular distance ...
to the chord (the infinite line through the first and last point)", stated
here to be compared with the source's `pdistSq`. -/
def linePerpDistSq (point line_start line_end : Point) : ℚ :=
  ((line_end.2 - line_start.2) * (point.1 - line_start.1) -
    (line_end.1 - line_start.1) * (point.2 - line_start.2)) ^ 2 /
   ((line_end.1 - line_start.1) * (line_end.1 - line_start.1) +
    (line_end.2 - line_start.2) * (line_end.2 - line_start.2))

/-- Modelled from the spec: perpendicular distance to the infinite line. -/
noncomputable def linePerpDist (point line_start line_end : Point) : ℝ :=
  Real.sqrt ((linePerpDistSq point line_start line_end : ℚ) : ℝ)

/-- One step of the source's maximum search
`if dist > max_dist: max_dist = dist; max_index = i` (update on strictly
greater, keep on ties). -/
def maxStep (acc di : ℚ × ℕ) : ℚ × ℕ :=
  if acc.1 < di.1 then di else acc

/-- The list of `(squared distance, index)` pairs the source's loop
`for i in range(1, len(points) - 1)` inspects: each interior point paired
with its (clamped-projection) squared distance to the first-last chord. -/
def interiorDists (points : List Point) : List (ℚ × ℕ) :=
  (List.range (points.length - 2)).map (fun j =>
    (pdistSq (points.getD (j + 1) ((0 : ℚ), (0 : ℚ)))
       (points.getD 0 ((0 : ℚ), (0 : ℚ)))
       (points.getD (points.length - 1) ((0 : ℚ), (0 : ℚ))), j + 1))

/-- The source's `max_dist, max_index` pair (squared distance), starting from
`max_dist = 0, max_index = 0`. -/
def maxDistIdx (points : List Point) : ℚ × ℕ :=
  (interiorDists points).foldl maxStep (0, 0)

/-- The recursive `rdp(points, epsilon)` from `simplify_path` (identical in
both scripts), with an explicit structural fuel so the kernel can evaluate it:
fewer than 3 points are returned unchanged; otherwise the interior point
farthest from the first-last chord splits the list when its distance exceeds
`epsilon` (compared here on squares, see the header note), the two halves are
simplified recursively and rejoined as `left[:-1] + right`; otherwise the
segment collapses to its two endpoints.  When the recursion branch is taken
both sublists are strictly shorter than the input (`maxDistIdx_mem_bounds`),
so `fuel = points.length` always suffices and the `fuel = 0` fallback is
unreachable from `rdp` (`rdpFuel_congr` below makes this precise). -/
def rdpFuel (eps : ℚ) (fuel : ℕ) (points : List Point) : List Point :=
  if points.length < 3 then points
  else
    match fuel with
    | 0 => points
    | fuel + 1 =>
      if eps ^ 2 < (maxDistIdx points).1 then
        (rdpFuel eps fuel (points.take ((maxDistIdx points).2 + 1))).dropLast ++
          rdpFuel eps fuel (points.drop (maxDistIdx points).2)
      else
        [points.getD 0 ((0 : ℚ), (0 : ℚ)),
          points.getD (points.length - 1) ((0 : ℚ), (0 : ℚ))]

/-- The function `rdp(points, epsilon)` itself, run with always-sufficient fuel. -/
def rdp (eps : ℚ) (points : List Point) : List Point :=
  rdpFuel eps points.length points

/-- The function `simplify_path(points, epsilon)`: the fewer-than-3-points guard followed by
the `rdp` recursion. -/
def simplify_path (points : List Point) (eps : ℚ) : List Point :=
  if points.length < 3 then points else rdp eps points

/-- Three points are collinear (zero cross product of difference vectors). -/
def collinear3 (a b c : Point) : Prop :=
  (b.1 - a.1) * (c.2 - a.2) - (c.1 - a.1) * (b.2 - a.2) = 0

/-- Point `p` lies on the closed segment from `s` to `e`. -/
def onSegment (p s e : Point) : Prop :=
  ∃ t : ℚ, 0 ≤ t ∧ t ≤ 1 ∧
    p.1 = s.1 + t * (e.1 - s.1) ∧ p.2 = s.2 + t * (e.2 - s.2)

/-- Entry `routes[0]` of a parsed OSRM response: `geometry.coordinates` plus
`distance` (meters) and `duration` (seconds). -/
structure RawRoute where
  coordinates : List Point
  distance : ℚ
  duration : ℚ
deriving DecidableEq

/-- The dict `get_osrm_route` returns on success:
`{path, distance_km, duration_hours}`. -/
structure FetchResult where
  path : List Point
  distance_km : ℚ
  duration_hours : ℚ
deriving DecidableEq

/-- Outcome of one HTTP request to the OSRM server: a response with an HTTP
status and a (possibly empty) `routes` array, a `requests.exceptions.Timeout`,
or any other raised exception. -/
inductive Attempt where
  | resp (status : ℕ) (routes : List RawRoute)
  | timeout
  | exn
deriving DecidableEq

/-- The in-memory `ROUTE_CACHE` dict: route-id string to cached result. -/
abbrev Cache := String → Option FetchResult

/-- The module-level initial value `ROUTE_CACHE = {}`. -/
def emptyCache : Cache := fun _ => none

/-- Assignment `ROUTE_CACHE[cache_key] = result` (insert or overwrite). -/
def Cache.insert (c : Cache) (k : String) (v : FetchResult) : Cache :=
  fun q => if q = k then some v else c q

/-- The success result built from `routes[0]`: raw coordinates, meters
converted to km, seconds converted to hours. -/
def mkFetchResult (r : RawRoute) : FetchResult :=
  { path := r.coordinates
    distance_km := r.distance / 1000
    duration_hours := r.duration / 3600 }

/-- Function `get_osrm_route(source, via, dest, route_id)` of
`process_rural_urban_analysis_round1.py` lines 165-218.  `cache_key` is the
`route_id` string itself (`f"{route_id}"`); a hit returns the cached entry
untouched.  On a miss the function issues one request (`env 0`): on
`response.ok` with a nonempty `routes` array it builds the result, writes it
into `ROUTE_CACHE` itself (line 210) and returns it; an ok response without
routes, a non-ok status, a timeout or any other exception all return `None`
without touching the cache (this fetcher has no retry loop — the state after
`env 0` is final, so later entries of `env` are never consulted). -/
def Round1.get_osrm_route (cache : Cache) (route_id : String)
    (env : ℕ → Attempt) : Option FetchResult × Cache :=
  match cache route_id with
  | some cached => (some cached, cache)
  | none =>
    match env 0 with
    | .resp status routes =>
      if status < 400 then
        match routes with
        | r :: _ => (some (mkFetchResult r), cache.insert route_id (mkFetchResult r))
        | [] => (none, cache)
      else (none, cache)
    | .timeout => (none, cache)
    | .exn => (none, cache)

/-- Constant `max_retries = 3` of `fix_missing_path.get_osrm_route`. -/
def FixMissingPath.max_retries : ℕ := 3

/-- The `for attempt in range(max_retries)` loop body of
`fix_missing_path.get_osrm_route` lines 47-86, with `rem` the number of loop
iterations left (`rem = max_retries - attempt`).  Besides the result it
returns the list of back-off sleeps performed (`time.sleep((attempt+1)*2)`).
An ok response with routes returns the result; an ok response without routes
falls through both `if`s and continues the loop; a status `≥ 400` returns
`None` immediately; a timeout sleeps `(attempt+1)*2` and retries unless it was
the last attempt; any other exception returns `None`; an exhausted loop
returns `None` (line 86). -/
def FixMissingPath.fetchLoop (env : ℕ → Attempt) (rem attempt : ℕ) :
    Option FetchResult × List ℕ :=
  match rem with
  | 0 => (none, [])
  | rem + 1 =>
    match env attempt with
    | .resp status routes =>
      if status < 400 then
        match routes with
        | r :: _ => (some (mkFetchResult r), [])
        | [] => FixMissingPath.fetchLoop env rem (attempt + 1)
      else (none, [])
    | .timeout =>
      if attempt < FixMissingPath.max_retries - 1 then
        ((FixMissingPath.fetchLoop env rem (attempt + 1)).1,
          (attempt + 1) * 2 :: (FixMissingPath.fetchLoop env rem (attempt + 1)).2)
      else (none, [])
    | .exn => (none, [])

/-- Function `get_osrm_route(source, via, dest, max_retries=3)` of
`fix_missing_path.py`: run the retry loop from attempt 0. -/
def FixMissingPath.get_osrm_route (env : ℕ → Attempt) :
    Option FetchResult × List ℕ :=
  FixMissingPath.fetchLoop env FixMissingPath.max_retries 0

/-- The three observable situations of `load_route_cache` (round1 lines
43-50): the cache file does not exist, it exists but `open`/`json.load`
raises (unreadable or corrupt), or it exists and parses to a stored map. -/
inductive LoadOutcome where
  | absent
  | corrupt
  | stored (m : Cache)

/-- Function `load_route_cache()` of `process_rural_urban_analysis_round1.py` lines
43-50.  There is no `try`/`except` in the source: if the file exists,
`json.load` runs unprotected, so a raised exception propagates to the caller
(modelled as `Except.error ()`); if the file is absent the module-level
`ROUTE_CACHE = {}` is returned; a successful parse replaces and returns the
stored map. -/
def load_route_cache (o : LoadOutcome) : Except Unit Cache :=
  match o with
  | .absent => Except.ok emptyCache
  | .corrupt => Except.error ()
  | .stored m => Except.ok m

/-- A `source`/`destination` dict: a display name and coordinates. -/
structure Endpoint where
  name : String
  coordinates : Point
deriving DecidableEq

/-- A `via_city` dict; `coordinates` may be `None`/missing (the orchestrator
checks `route['via_city'].get('coordinates')`).  A Python `None` name is
modelled as the empty string. -/
structure ViaCity where
  name : String
  coordinates : Option Point
deriving DecidableEq

/-- One entry of `all_routes` as the OSRM loop of `main` consumes it.
`path = none` models a missing `'path'` key and `path = some []` a present
but empty list; other fields of the dict do not influence the modelled
control flow. -/
structure Route where
  source : Endpoint
  destination : Endpoint
  via_city : Option ViaCity
  years : List Int
  path : Option (List Point)
  distance_km : Option ℚ
  duration_hours : Option ℚ
deriving DecidableEq

/-- Line 868: `route_id = f"{route['source']['name']}-{route['via_city']['name']}-{route['destination']['name']}"`;
this string is the `ROUTE_CACHE` key used by `get_osrm_route`. -/
def route_id_of (r : Route) (v : ViaCity) : String :=
  r.source.name ++ "-" ++ v.name ++ "-" ++ r.destination.name

/-- Which arm of the per-task body of the OSRM loop (round1 lines 845-900)
ran: the resume skip (`idx <= start_from`), the reuse of an already present
path, the no-via skip, or an actual call into `get_osrm_route`. -/
inductive StepKind where
  | skippedResume
  | reusedExisting
  | skippedNoVia
  | fetchAttempted
deriving DecidableEq

/-- Observable outcome of one iteration of the OSRM loop: the (possibly
updated) route dict, the cache state, which arm ran, whether `ROUTE_CACHE`
was consulted for this task (it is read only inside `get_osrm_route`), and
the success/fail counter increments. -/
structure StepResult where
  route : Route
  cache : Cache
  kind : StepKind
  checkedCache : Bool
  successDelta : ℕ
  failDelta : ℕ

/-- One iteration of `for idx, route in enumerate(routes_to_process, 1)`
(round1 lines 845-900).  `idx <= start_from` skips the task, incrementing the
success counter iff `'path' in route` (line 849 checks key presence only) and
performing no cache lookup; a present nonempty path is reused (line 854);
a task without usable `via_city` coordinates is skipped; otherwise
`get_osrm_route` runs and on success the orchestrator stores the simplified
path (epsilon `0.001`) on the route — the cache comes back exactly as
`get_osrm_route` left it, the orchestrator itself writes nothing to it. -/
def processTask (cache : Cache) (start_from idx : ℕ) (r : Route)
    (env : ℕ → Attempt) : StepResult :=
  if idx ≤ start_from then
    { route := r, cache := cache, kind := .skippedResume, checkedCache := false
      successDelta := if r.path.isSome then 1 else 0, failDelta := 0 }
  else
    match r.path with
    | some (_ :: _) =>
      { route := r, cache := cache, kind := .reusedExisting, checkedCache := false
        successDelta := 1, failDelta := 0 }
    | _ =>
      match r.via_city with
      | some v =>
        match v.coordinates with
        | some _ =>
          match Round1.get_osrm_route cache (route_id_of r v) env with
          | (some osrm_result, cache2) =>
            { route := { r with
                path := some (simplify_path osrm_result.path (1 / 1000))
                distance_km := some osrm_result.distance_km
                duration_hours := some osrm_result.duration_hours }
              cache := cache2, kind := .fetchAttempted, checkedCache := true
              successDelta := 1, failDelta := 0 }
          | (none, cache2) =>
            { route := r, cache := cache2, kind := .fetchAttempted
              checkedCache := true, successDelta := 0, failDelta := 1 }
        | none =>
          { route := r, cache := cache, kind := .skippedNoVia
            checkedCache := false, successDelta := 0, failDelta := 0 }
      | none =>
        { route := r, cache := cache, kind := .skippedNoVia
          checkedCache := false, successDelta := 0, failDelta := 0 }

/-- One entry of the hierarchical year-store: the three path-related fields
the merge step may write, plus all remaining fields collapsed into `core`
(source, destination, via_city, flow, quantity, commodity, ...), which the
merge step never touches. -/
structure HierEntry (α : Type) where
  core : α
  path : Option (List Point)
  distance_km : Option ℚ
  duration_hours : Option ℚ
deriving DecidableEq

/-- The components of the re-derived hierarchical `route_id`
`f"r_{src_x}_{src_y}_{dest_x}_{dest_y}_{city_name}"` (round1 line 976):
the four 1-decimal-rounded coordinates and the city name. -/
abbrev HierKey := ℚ × ℚ × ℚ × ℚ × String

/-- The `hierarchical_data` two-level dict: year to route id to entry. -/
abbrev Store (α : Type) := Int → HierKey → Option (HierEntry α)

/-- Python's `round(x, 1)` (tie-breaking differences between Python's
round-half-even and Mathlib's `round` are irrelevant to every claim: no
claim input sits on a tie). -/
def round1dp (q : ℚ) : ℚ := ((round (q * 10) : ℤ) : ℚ) / 10

/-- Lines 971-974: `city_name = route['via_city']['name']` when a truthy
`via_city` dict carries a truthy name, else `'direct'`. -/
def hierCityName (r : Route) : String :=
  match r.via_city with
  | some v => if v.name = "" then "direct" else v.name
  | none => "direct"

/-- The re-derived hierarchical route identifier of line 976, as its
structured components. -/
def hier_route_id (r : Route) : HierKey :=
  (round1dp r.source.coordinates.1, round1dp r.source.coordinates.2,
    round1dp r.destination.coordinates.1, round1dp r.destination.coordinates.2,
    hierCityName r)

/-- Lines 982-984: overwrite the three path-related fields of an entry. -/
def patchEntry {α : Type} (e : HierEntry α) (p : List Point)
    (dk dh : Option ℚ) : HierEntry α :=
  { e with path := some p, distance_km := dk, duration_hours := dh }

/-- Lines 979-984 for one year: patch the entry at `(year, route_id)` only if
`year_str in hierarchical_data and route_id in hierarchical_data[year_str]`. -/
def applyRouteYear {α : Type} (st : Store α) (k : HierKey) (p : List Point)
    (dk dh : Option ℚ) (y : Int) : Store α :=
  match st y k with
  | some e => fun y2 k2 =>
      if y2 = y ∧ k2 = k then some (patchEntry e p dk dh) else st y2 k2
  | none => st

/-- Lines 961-984 for one route of `all_routes`: if it carries a truthy
path, patch every year it lists (with the same path in each); otherwise the
store is untouched. -/
def applyRoute {α : Type} (st : Store α) (r : Route) : Store α :=
  match r.path with
  | some (q :: qs) =>
    r.years.foldl (fun st2 y =>
      applyRouteYear st2 (hier_route_id r) (q :: qs)
        r.distance_km r.duration_hours y) st
  | _ => st

/-- The whole merge loop `for route in all_routes:` of lines 961-991. -/
def mergePaths {α : Type} (st : Store α) (routes : List Route) : Store α :=
  routes.foldl applyRoute st

/-- Concrete via city used by the C1/C2 examples. -/
def viaKumasi : ViaCity := { name := "Kumasi", coordinates := some (2, 2) }

/-- Concrete task: source named Accra at rounded coordinates (0.5, 0.25). -/
def c1TaskA : Route :=
  { source := { name := "Accra", coordinates := (1 / 2, 1 / 4) }
    destination := { name := "Lagos", coordinates := (3, 4) }
    via_city := some viaKumasi
    years := [2013], path := none, distance_km := none, duration_hours := none }

/-- Same rounded coordinates and waypoint as `c1TaskA`, different source
name (as produced by a different mode of `source_nam` in another group). -/
def c1TaskB : Route :=
  { c1TaskA with source := { name := "Tema", coordinates := (1 / 2, 1 / 4) } }

/-- Same names as `c1TaskA`, completely different coordinates. -/
def c1TaskC : Route :=
  { c1TaskA with
    source := { name := "Accra", coordinates := (7, 8) }
    destination := { name := "Lagos", coordinates := (9, 10) } }

/-- Concrete via city used by the C2 counterexample. -/
def c2Via : ViaCity := { name := "V", coordinates := some (1 / 2, 1 / 2) }

/-- A cached fetch result for the C2 counterexample. -/
def c2Entry : FetchResult :=
  { path := [(0, 0), (1, 1)], distance_km := 5, duration_hours := 1 / 10 }

/-- A resumable task whose cache key is present in the cache but whose route
dict carries no `path` key. -/
def c2Task : Route :=
  { source := { name := "S", coordinates := (0, 0) }
    destination := { name := "D", coordinates := (1, 1) }
    via_city := some c2Via
    years := [2014], path := none, distance_km := none, duration_hours := none }

/-- A cache already holding `c2Task`'s key (its id is `"S-V-D"`). -/
def c2Cache : Cache := Cache.insert emptyCache (route_id_of c2Task c2Via) c2Entry

/-- A concrete raw OSRM route used by the C3/C5 examples. -/
def c3Raw : RawRoute :=
  { coordinates := [(0, 0), (1, 0), (2, 1)], distance := 1000, duration := 3600 }

/-- A concrete fetched path used by the C9 example. -/
def c9Path : List Point := [(0, 0), (1, 0)]

/-- The pre-merge hierarchical entry used by the C9 example. -/
def c9Entry0 : HierEntry String :=
  { core := "rec", path := none, distance_km := none, duration_hours := none }

/-- A route carrying a fetched path, listed under two years. -/
def c9Route : Route :=
  { source := { name := "S", coordinates := (0, 0) }
    destination := { name := "D", coordinates := (1, 0) }
    via_city := some viaKumasi
    years := [2013, 2014]
    path := some c9Path
    distance_km := some 5, duration_hours := some (1 / 10) }

/-- A hierarchical store holding `c9Route`'s identifier under both years. -/
def c9Store : Store String := fun y k =>
  if (y = 2013 ∨ y = 2014) ∧ k = hier_route_id c9Route then some c9Entry0
  else none

theorem pdistSq_def (p s e : Point) :
    pdistSq p s e =
      if e.1 - s.1 = 0 ∧ e.2 - s.2 = 0 then
        (p.1 - s.1) ^ 2 + (p.2 - s.2) ^ 2
      else
        (p.1 - (s.1 +
          max 0 (min 1 (((p.1 - s.1) * (e.1 - s.1) + (p.2 - s.2) * (e.2 - s.2)) /
            ((e.1 - s.1) * (e.1 - s.1) + (e.2 - s.2) * (e.2 - s.2)))) * (e.1 - s.1))) ^ 2 +
        (p.2 - (s.2 +
          max 0 (min 1 (((p.1 - s.1) * (e.1 - s.1) + (p.2 - s.2) * (e.2 - s.2)) /
            ((e.1 - s.1) * (e.1 - s.1) + (e.2 - s.2) * (e.2 - s.2)))) * (e.2 - s.2))) ^ 2 :=
  rfl

theorem foldl_maxStep_cases :
    ∀ (l : List (ℚ × ℕ)) (acc : ℚ × ℕ),
      l.foldl maxStep acc = acc ∨ l.foldl maxStep acc ∈ l := by
  intro l
  induction l with
  | nil => intro acc; left; rfl
  | cons d t ih =>
    intro acc
    have h := ih (maxStep acc d)
    rcases h with h | h
    · rw [List.foldl_cons, h]
      unfold maxStep
      split
      · right; exact List.mem_cons_self d t
      · left; rfl
    · right
      rw [List.foldl_cons]
      exact List.mem_cons_of_mem d h

theorem maxDistIdx_mem_bounds (points : List Point)
    (h : 0 < (maxDistIdx points).1) :
    1 ≤ (maxDistIdx points).2 ∧ (maxDistIdx points).2 ≤ points.length - 2 := by
  have hc := foldl_maxStep_cases (interiorDists points) (0, 0)
  rw [show (interiorDists points).foldl maxStep (0, 0) = maxDistIdx points from rfl] at hc
  rcases hc with hc | hc
  · rw [hc] at h
    exact absurd h (lt_irrefl 0)
  · unfold interiorDists at hc
    rcases List.mem_map.mp hc with ⟨j, hj, hje⟩
    have hjlt : j < points.length - 2 := List.mem_range.mp hj
    have h2 : (maxDistIdx points).2 = j + 1 := by rw [← hje]
    omega

theorem rdpFuel_zero (eps : ℚ) (points : List Point) :
    rdpFuel eps 0 points = points := by
  rw [show rdpFuel eps 0 points =
    if points.length < 3 then points else points from rfl, ite_self]

theorem rdpFuel_succ (eps : ℚ) (n : ℕ) (points : List Point) :
    rdpFuel eps (n + 1) points =
      if points.length < 3 then points
      else
        if eps ^ 2 < (maxDistIdx points).1 then
          (rdpFuel eps n (points.take ((maxDistIdx points).2 + 1))).dropLast ++
            rdpFuel eps n (points.drop (maxDistIdx points).2)
        else
          [points.getD 0 ((0 : ℚ), (0 : ℚ)),
            points.getD (points.length - 1) ((0 : ℚ), (0 : ℚ))] := rfl

theorem rdpFuel_short (eps : ℚ) (fuel : ℕ) (points : List Point)
    (h : points.length < 3) : rdpFuel eps fuel points = points := by
  match fuel with
  | 0 => rw [rdpFuel_zero]
  | m + 1 => rw [rdpFuel_succ, if_pos h]

/-- Any fuel of at least `points.length` computes the same result: the
`fuel = 0` fallback of `rdpFuel` is never reached by `rdp`. -/
theorem rdpFuel_congr (eps : ℚ) :
    ∀ (fuel₁ fuel₂ : ℕ) (points : List Point),
      points.length ≤ fuel₁ → points.length ≤ fuel₂ →
      rdpFuel eps fuel₁ points = rdpFuel eps fuel₂ points := by
  intro fuel₁
  induction fuel₁ with
  | zero =>
    intro fuel₂ points h1 _
    have h3 : points.length < 3 := by omega
    rw [rdpFuel_short eps _ _ h3, rdpFuel_short eps _ _ h3]
  | succ n ih =>
    intro fuel₂ points h1 h2
    by_cases h3 : points.length < 3
    · rw [rdpFuel_short eps _ _ h3, rdpFuel_short eps _ _ h3]
    · match fuel₂ with
      | 0 => omega
      | m + 1 =>
        rw [rdpFuel_succ, rdpFuel_succ, if_neg h3, if_neg h3]
        by_cases hm : eps ^ 2 < (maxDistIdx points).1
        · rw [if_pos hm, if_pos hm]
          have hb := maxDistIdx_mem_bounds points (lt_of_le_of_lt (sq_nonneg eps) hm)
          have hlt : (points.take ((maxDistIdx points).2 + 1)).length ≤ n ∧
              (points.drop (maxDistIdx points).2).length ≤ n := by
            simp only [List.length_take, List.length_drop]
            omega
          have hlt₂ : (points.take ((maxDistIdx points).2 + 1)).length ≤ m ∧
              (points.drop (maxDistIdx points).2).length ≤ m := by
            simp only [List.length_take, List.length_drop]
            omega
          rw [ih _ _ hlt.1 hlt₂.1, ih _ _ hlt.2 hlt₂.2]
        · rw [if_neg hm, if_neg hm]

theorem pdistSq_nonneg (p s e : Point) : 0 ≤ pdistSq p s e := by
  rw [pdistSq_def]
  split
  · positivity
  · positivity

theorem head?_dropLast_of_two_le {l : List Point} (h : 2 ≤ l.length) :
    l.dropLast.head? = l.head? := by
  cases l with
  | nil => simp at h
  | cons a t =>
    cases t with
    | nil => simp at h
    | cons b t₂ =>
      rw [List.dropLast_cons₂]
      rfl

theorem head?_take_of_pos {l : List Point} {n : ℕ} (h : 0 < n) :
    (l.take n).head? = l.head? := by
  cases l with
  | nil => simp
  | cons a t =>
    cases n with
    | zero => omega
    | succ m => rfl

theorem getLast?_drop_of_lt {l : List Point} {i : ℕ} (h : i < l.length) :
    (l.drop i).getLast? = l.getLast? := by
  induction i generalizing l with
  | zero => rfl
  | succ n ih =>
    cases l with
    | nil => simp at h
    | cons a t =>
      have ht : n < t.length := by
        simp only [List.length_cons] at h
        omega
      rw [List.drop_succ_cons, ih ht]
      cases t with
      | nil => simp at ht
      | cons b t₂ => rw [List.getLast?_cons_cons]

theorem getD_zero_eq_head? (l : List Point) (d : Point) (h : l ≠ []) :
    some (l.getD 0 d) = l.head? := by
  cases l with
  | nil => exact absurd rfl h
  | cons a t => rfl

theorem getD_last_eq_getLast? (l : List Point) (d : Point) (h : l ≠ []) :
    some (l.getD (l.length - 1) d) = l.getLast? := by
  have hlt : l.length - 1 < l.length := by
    cases l with
    | nil => exact absurd rfl h
    | cons a t => simp
  rw [List.getD_eq_getElem l d hlt, List.getLast?_eq_getLast l h,
    List.getLast_eq_getElem]

/-- Master lemma for the Douglas-Peucker recursion: for every fuel and every
input of at least two points, the result keeps the input's first and last
points, is no longer than the input, and has at least two points. -/
theorem rdpFuel_spec (eps : ℚ) :
    ∀ (fuel : ℕ) (points : List Point), 2 ≤ points.length →
      (rdpFuel eps fuel points).head? = points.head? ∧
      (rdpFuel eps fuel points).getLast? = points.getLast? ∧
      (rdpFuel eps fuel points).length ≤ points.length ∧
      2 ≤ (rdpFuel eps fuel points).length := by
  intro fuel
  induction fuel with
  | zero =>
    intro points h2
    rw [rdpFuel_zero]
    exact ⟨rfl, rfl, le_refl _, h2⟩
  | succ n ih =>
    intro points h2
    rw [rdpFuel_succ]
    by_cases h3 : points.length < 3
    · rw [if_pos h3]
      exact ⟨rfl, rfl, le_refl _, h2⟩
    · rw [if_neg h3]
      have hne : points ≠ [] := by
        intro hc
        rw [hc] at h3
        simp at h3
      by_cases hm : eps ^ 2 < (maxDistIdx points).1
      · rw [if_pos hm]
        obtain ⟨hi1, hi2⟩ :=
          maxDistIdx_mem_bounds points (lt_of_le_of_lt (sq_nonneg eps) hm)
        have htk_len : (points.take ((maxDistIdx points).2 + 1)).length =
            (maxDistIdx points).2 + 1 := by
          rw [List.length_take]
          omega
        have hdr_len : (points.drop ((maxDistIdx points).2)).length =
            points.length - (maxDistIdx points).2 := List.length_drop _ _
        obtain ⟨tkh, tkl, tkle, tk2⟩ :=
          ih (points.take ((maxDistIdx points).2 + 1)) (by omega)
        obtain ⟨drh, drl, drle, dr2⟩ :=
          ih (points.drop ((maxDistIdx points).2)) (by omega)
        have hAd : (rdpFuel eps n (points.take ((maxDistIdx points).2 + 1))).dropLast ≠ [] := by
          intro hc
          have := congrArg List.length hc
          rw [List.length_dropLast] at this
          simp at this
          omega
        have hBne : rdpFuel eps n (points.drop ((maxDistIdx points).2)) ≠ [] := by
          intro hc
          rw [hc] at dr2
          simp at dr2
        refine ⟨?_, ?_, ?_, ?_⟩
        · rw [List.head?_append_of_ne_nil _ hAd, head?_dropLast_of_two_le tk2, tkh,
            head?_take_of_pos (Nat.succ_pos _)]
        · rw [List.getLast?_append_of_ne_nil _ hBne, drl, getLast?_drop_of_lt (by omega)]
        · rw [List.length_append, List.length_dropLast]
          omega
        · rw [List.length_append, List.length_dropLast]
          omega
      · rw [if_neg hm]
        refine ⟨?_, ?_, ?_, ?_⟩
        · rw [show ([points.getD 0 ((0 : ℚ), (0 : ℚ)),
              points.getD (points.length - 1) ((0 : ℚ), (0 : ℚ))].head?) =
              some (points.getD 0 ((0 : ℚ), (0 : ℚ))) from rfl]
          exact getD_zero_eq_head? points _ hne
        · rw [show ([points.getD 0 ((0 : ℚ), (0 : ℚ)),
              points.getD (points.length - 1) ((0 : ℚ), (0 : ℚ))].getLast?) =
              some (points.getD (points.length - 1) ((0 : ℚ), (0 : ℚ))) from rfl]
          exact getD_last_eq_getLast? points _ hne
        · simp only [List.length_cons, List.length_nil]
          omega
        · simp only [List.length_cons, List.length_nil]
          omega

/-- C6: `simplify_path` returns inputs with fewer than 3 points unchanged;
otherwise its output keeps the input's first and last points exactly (as
`head?`/`getLast?`) and is no longer than the input. -/
theorem c6_simplify_path_endpoints_length (points : List Point) (eps : ℚ)
    (heps : 0 < eps) :
    (points.length < 3 → simplify_path points eps = points) ∧
    (3 ≤ points.length →
      (simplify_path points eps).head? = points.head? ∧
      (simplify_path points eps).getLast? = points.getLast? ∧
      (simplify_path points eps).length ≤ points.length) := by
  constructor
  · intro h3
    rw [simplify_path, if_pos h3]
  · intro h3
    rw [simplify_path, if_neg (by omega), rdp]
    obtain ⟨h1, h2', h3', _⟩ := rdpFuel_spec eps points.length points (by omega)
    exact ⟨h1, h2', h3'⟩

theorem c6_simplify_path_endpoints_length_witness :
    (0 : ℚ) < 1 ∧
    (([((0 : ℚ), (0 : ℚ)), (1, 1), (2, 0), (3, 5)].length < 3 →
        simplify_path [((0 : ℚ), (0 : ℚ)), (1, 1), (2, 0), (3, 5)] 1 =
          [((0 : ℚ), (0 : ℚ)), (1, 1), (2, 0), (3, 5)]) ∧
      (3 ≤ [((0 : ℚ), (0 : ℚ)), (1, 1), (2, 0), (3, 5)].length →
        (simplify_path [((0 : ℚ), (0 : ℚ)), (1, 1), (2, 0), (3, 5)] 1).head? =
          [((0 : ℚ), (0 : ℚ)), (1, 1), (2, 0), (3, 5)].head? ∧
        (simplify_path [((0 : ℚ), (0 : ℚ)), (1, 1), (2, 0), (3, 5)] 1).getLast? =
          [((0 : ℚ), (0 : ℚ)), (1, 1), (2, 0), (3, 5)].getLast? ∧
        (simplify_path [((0 : ℚ), (0 : ℚ)), (1, 1), (2, 0), (3, 5)] 1).length ≤
          [((0 : ℚ), (0 : ℚ)), (1, 1), (2, 0), (3, 5)].length)) :=
  ⟨one_pos, c6_simplify_path_endpoints_length _ 1 one_pos⟩

theorem interiorDists_three (a b c : Point) :
    interiorDists [a, b, c] = [(pdistSq b a c, 1)] := rfl

theorem maxDistIdx_three (a b c : Point) :
    maxDistIdx [a, b, c] = maxStep (0, 0) (pdistSq b a c, 1) := rfl

/-- Closed form of the recursion on a 3-point list: the middle point is kept
exactly when its (clamped-projection) distance to the chord exceeds
`epsilon`. -/
theorem rdp_three (eps : ℚ) (a b c : Point) :
    rdp eps [a, b, c] =
      if eps ^ 2 < pdistSq b a c then [a, b, c] else [a, c] := by
  have hnn := pdistSq_nonneg b a c
  have h0 : rdp eps [a, b, c] = rdpFuel eps (2 + 1) [a, b, c] := rfl
  rw [h0, rdpFuel_succ, if_neg (by simp)]
  rw [maxDistIdx_three]
  unfold maxStep
  by_cases hd : (0 : ℚ) < pdistSq b a c
  · rw [if_pos (show ((0 : ℚ), (0 : ℕ)).1 < (pdistSq b a c, 1).1 from hd)]
    rw [show ((pdistSq b a c, (1 : ℕ))).1 = pdistSq b a c from rfl]
    rw [show ((pdistSq b a c, (1 : ℕ))).2 = 1 from rfl]
    rw [rdpFuel_short eps 2 (([a, b, c] : List Point).take 2) (by simp)]
    rw [rdpFuel_short eps 2 (([a, b, c] : List Point).drop 1) (by simp)]
    by_cases heps : eps ^ 2 < pdistSq b a c
    · rw [if_pos heps, if_pos heps]
      rfl
    · rw [if_neg heps, if_neg heps]
      rfl
  · rw [if_neg (show ¬(((0 : ℚ), (0 : ℕ)).1 < (pdistSq b a c, 1).1) from hd)]
    have hz : pdistSq b a c = 0 := le_antisymm (not_lt.mp hd) hnn
    rw [hz]
    rw [if_neg (not_lt.mpr (sq_nonneg eps)), if_neg (not_lt.mpr (sq_nonneg eps))]
    rfl

theorem lenSq_pos {s e : Point} (h : ¬(e.1 - s.1 = 0 ∧ e.2 - s.2 = 0)) :
    0 < (e.1 - s.1) * (e.1 - s.1) + (e.2 - s.2) * (e.2 - s.2) := by
  rcases not_and_or.mp h with h | h
  · exact add_pos_of_pos_of_nonneg (mul_self_pos.mpr h) (mul_self_nonneg _)
  · exact add_pos_of_nonneg_of_pos (mul_self_nonneg _) (mul_self_pos.mpr h)

/-- A point on the closed segment has zero clamped-projection distance. -/
theorem pdistSq_eq_zero_of_onSegment {p s e : Point} (h : onSegment p s e) :
    pdistSq p s e = 0 := by
  obtain ⟨t, ht0, ht1, hx, hy⟩ := h
  rw [pdistSq_def]
  by_cases hdeg : e.1 - s.1 = 0 ∧ e.2 - s.2 = 0
  · rw [if_pos hdeg]
    obtain ⟨h1, h2⟩ := hdeg
    rw [hx, hy, h1]
    rw [show e.2 - s.2 = 0 from h2]
    ring
  · rw [if_neg hdeg]
    have hlen := lenSq_pos hdeg
    have hdot : (p.1 - s.1) * (e.1 - s.1) + (p.2 - s.2) * (e.2 - s.2) =
        t * ((e.1 - s.1) * (e.1 - s.1) + (e.2 - s.2) * (e.2 - s.2)) := by
      rw [hx, hy]
      ring
    have ht : ((p.1 - s.1) * (e.1 - s.1) + (p.2 - s.2) * (e.2 - s.2)) /
        ((e.1 - s.1) * (e.1 - s.1) + (e.2 - s.2) * (e.2 - s.2)) = t := by
      rw [hdot]
      field_simp
    rw [ht, min_eq_right ht1, max_eq_right ht0, hx, hy]
    ring

theorem maxDistIdx_fst_eq_zero (points : List Point)
    (h : ∀ d ∈ interiorDists points, d.1 = 0) :
    (maxDistIdx points).1 = 0 := by
  have hc := foldl_maxStep_cases (interiorDists points) (0, 0)
  rw [show (interiorDists points).foldl maxStep (0, 0) = maxDistIdx points from rfl] at hc
  rcases hc with hc | hc
  · rw [hc]
  · exact h _ hc

/-- C8 fails as stated: this input is collinear (all points on the x-axis)
and `epsilon = 1/2 > 0`, yet `simplify_path` keeps all three points, because
the source's `perpendicular_distance` clamps the projection onto the chord
segment — the interior point `(2, 0)` lies beyond the chord end `(1, 0)`, so
its clamped distance is `1 > epsilon` even though its distance to the
infinite line is `0`. -/
theorem c8_counterexample :
    collinear3 ((0 : ℚ), (0 : ℚ)) (2, 0) (1, 0) ∧
    (0 : ℚ) < 1 / 2 ∧
    simplify_path [((0 : ℚ), (0 : ℚ)), (2, 0), (1, 0)] (1 / 2) ≠
      [((0 : ℚ), (0 : ℚ)), (1, 0)] := by
  refine ⟨by norm_num [collinear3], by norm_num, ?_⟩
  have hp : pdistSq (2, 0) ((0 : ℚ), (0 : ℚ)) (1, 0) = 1 := by
    rw [pdistSq_def]
    norm_num [min_def, max_def]
  have hs : simplify_path [((0 : ℚ), (0 : ℚ)), (2, 0), (1, 0)] (1 / 2) =
      [((0 : ℚ), (0 : ℚ)), (2, 0), (1, 0)] := by
    rw [simplify_path, if_neg (by simp), rdp_three, hp, if_pos (by norm_num)]
  rw [hs]
  intro hc
  exact absurd (congrArg List.length hc) (by decide)

/-- C8 amended: for every input of at least two points whose interior points
all lie on the closed segment between the first and last point (a monotone
straight-line path), and every `epsilon > 0`, `simplify_path` returns exactly
the two endpoints. -/
theorem c8_amended_segment_input (points : List Point) (eps : ℚ)
    (h2 : 2 ≤ points.length) (heps : 0 < eps)
    (hseg : ∀ i, 0 < i → i + 1 < points.length →
      onSegment (points.getD i ((0 : ℚ), (0 : ℚ)))
        (points.getD 0 ((0 : ℚ), (0 : ℚ)))
        (points.getD (points.length - 1) ((0 : ℚ), (0 : ℚ)))) :
    simplify_path points eps =
      [points.getD 0 ((0 : ℚ), (0 : ℚ)),
        points.getD (points.length - 1) ((0 : ℚ), (0 : ℚ))] := by
  by_cases h3 : points.length < 3
  · rw [simplify_path, if_pos h3]
    cases points with
    | nil => simp at h2
    | cons a t =>
      cases t with
      | nil => simp at h2
      | cons b t₂ =>
        cases t₂ with
        | nil => rfl
        | cons c t₃ =>
          simp only [List.length_cons] at h3
          omega
  · rw [simplify_path, if_neg h3]
    have hzero : (maxDistIdx points).1 = 0 := by
      apply maxDistIdx_fst_eq_zero
      intro d hd
      unfold interiorDists at hd
      rcases List.mem_map.mp hd with ⟨j, hj, hje⟩
      have hjr : j < points.length - 2 := List.mem_range.mp hj
      rw [← hje]
      exact pdistSq_eq_zero_of_onSegment (hseg (j + 1) (by omega) (by omega))
    obtain ⟨m, hm⟩ : ∃ m, points.length = m + 1 := ⟨points.length - 1, by omega⟩
    rw [rdp, hm, rdpFuel_succ, if_neg (by omega), hzero,
      if_neg (not_lt.mpr (sq_nonneg eps)), ← hm]

theorem c8_amended_segment_input_witness :
    simplify_path [((0 : ℚ), (0 : ℚ)), (1, 0), (2, 0)] 1 =
      [[((0 : ℚ), (0 : ℚ)), (1, 0), (2, 0)].getD 0 ((0 : ℚ), (0 : ℚ)),
        [((0 : ℚ), (0 : ℚ)), (1, 0), (2, 0)].getD
          ([((0 : ℚ), (0 : ℚ)), (1, 0), (2, 0)].length - 1) ((0 : ℚ), (0 : ℚ))] := by
  apply c8_amended_segment_input
  · simp
  · norm_num
  · intro i h1 h2
    simp only [List.length_cons, List.length_nil] at h2
    have hi : i = 1 := by omega
    subst hi
    exact ⟨1 / 2, by norm_num, by norm_num, by norm_num, by norm_num⟩

/-- C7 fails as stated: at the interior point `(2, 1)` of the 3-point segment
`[(0,0), (2,1), (1,0)]` under simplification, the source computes the
distance to the *clamped* projection (the chord segment), which here is
`sqrt 2` (distance to the endpoint `(1, 0)`), while the perpendicular
distance to the infinite line through `(0,0)` and `(1,0)` is `1`. -/
theorem c7_counterexample :
    perpendicular_distance (2, 1) (0, 0) (1, 0) ≠ linePerpDist (2, 1) (0, 0) (1, 0) := by
  have h1 : pdistSq (2, 1) ((0 : ℚ), (0 : ℚ)) (1, 0) = 2 := by
    rw [pdistSq_def]
    norm_num [min_def, max_def]
  have h2 : linePerpDistSq (2, 1) ((0 : ℚ), (0 : ℚ)) (1, 0) = 1 := by
    unfold linePerpDistSq
    norm_num
  unfold perpendicular_distance linePerpDist
  rw [h1, h2]
  push_cast
  rw [Real.sqrt_one]
  intro hc
  have h4 : Real.sqrt 2 ^ 2 = 2 := Real.sq_sqrt (by norm_num)
  rw [hc] at h4
  norm_num at h4

/-- C7 amended: the source's `perpendicular_distance` is the Euclidean
distance to the *clamped* projection onto the chord segment.  For a
degenerate (zero-length) chord it equals the plain Euclidean distance to the
single endpoint (this part of the claim holds), and it equals the
perpendicular distance to the infinite line exactly when the unclamped
projection parameter lies in `[0, 1]` (the interior point projects inside
the chord). -/
theorem c7_amended_clamped_distance (p s e : Point) :
    (e.1 - s.1 = 0 ∧ e.2 - s.2 = 0 →
      perpendicular_distance p s e =
        Real.sqrt ((((p.1 - s.1) ^ 2 + (p.2 - s.2) ^ 2 : ℚ)) : ℝ)) ∧
    (¬(e.1 - s.1 = 0 ∧ e.2 - s.2 = 0) → 0 ≤ projT p s e → projT p s e ≤ 1 →
      perpendicular_distance p s e = linePerpDist p s e) := by
  constructor
  · intro hdeg
    unfold perpendicular_distance
    rw [pdistSq_def, if_pos hdeg]
  · intro hdeg h0 h1
    unfold perpendicular_distance linePerpDist
    have hq : pdistSq p s e = linePerpDistSq p s e := by
      rw [pdistSq_def, if_neg hdeg]
      have hTfold : ((p.1 - s.1) * (e.1 - s.1) + (p.2 - s.2) * (e.2 - s.2)) /
          ((e.1 - s.1) * (e.1 - s.1) + (e.2 - s.2) * (e.2 - s.2)) = projT p s e := rfl
      rw [hTfold, min_eq_right h1, max_eq_right h0]
      have hne : (e.1 - s.1) * (e.1 - s.1) + (e.2 - s.2) * (e.2 - s.2) ≠ 0 :=
        ne_of_gt (lenSq_pos hdeg)
      unfold linePerpDistSq projT
      field_simp
      ring
    rw [hq]

theorem c7_amended_clamped_distance_witness :
    ¬(((2 : ℚ), (0 : ℚ)).1 - ((0 : ℚ), (0 : ℚ)).1 = 0 ∧
        ((2 : ℚ), (0 : ℚ)).2 - ((0 : ℚ), (0 : ℚ)).2 = 0) ∧
    0 ≤ projT (1, 1) (0, 0) (2, 0) ∧ projT (1, 1) (0, 0) (2, 0) ≤ 1 ∧
    perpendicular_distance (1, 1) (0, 0) (2, 0) = linePerpDist (1, 1) (0, 0) (2, 0) :=
  ⟨by norm_num, by norm_num [projT], by norm_num [projT],
    (c7_amended_clamped_distance (1, 1) (0, 0) (2, 0)).2 (by norm_num)
      (by norm_num [projT]) (by norm_num [projT])⟩

theorem FixMissingPath.fetchLoop_timeout (env : ℕ → Attempt) (rem attempt : ℕ)
    (h : env attempt = .timeout) :
    FixMissingPath.fetchLoop env (rem + 1) attempt =
      if attempt < FixMissingPath.max_retries - 1 then
        ((FixMissingPath.fetchLoop env rem (attempt + 1)).1,
          (attempt + 1) * 2 :: (FixMissingPath.fetchLoop env rem (attempt + 1)).2)
      else (none, []) := by
  conv_lhs => rw [FixMissingPath.fetchLoop.eq_def]
  rw [h]

/-- Three consecutive timeouts exhaust `fix_missing_path`'s retry loop: three
attempts are made, the backoff sleeps are `[2, 4]` (linearly increasing,
`attempt_index * 2` for the 1-based attempt index), and the result is
absent. -/
theorem fetchLoop_all_timeout (env : ℕ → Attempt)
    (h0 : env 0 = .timeout) (h1 : env 1 = .timeout) (h2 : env 2 = .timeout) :
    FixMissingPath.fetchLoop env 3 0 = (none, [2, 4]) := by
  have s0 := FixMissingPath.fetchLoop_timeout env 2 0 h0
  have s1 := FixMissingPath.fetchLoop_timeout env 1 1 h1
  have s2 := FixMissingPath.fetchLoop_timeout env 0 2 h2
  rw [if_pos (by decide)] at s0
  rw [if_pos (by decide)] at s1
  rw [if_neg (by decide)] at s2
  rw [show FixMissingPath.fetchLoop env 3 0 =
    FixMissingPath.fetchLoop env (2 + 1) 0 from rfl, s0]
  rw [show FixMissingPath.fetchLoop env 2 (0 + 1) =
    FixMissingPath.fetchLoop env (1 + 1) 1 from rfl, s1]
  rw [show FixMissingPath.fetchLoop env 1 (1 + 1) =
    FixMissingPath.fetchLoop env (0 + 1) 2 from rfl, s2]

/-- C5 fails as stated: the round1 fetcher does not retry.  Its only request
(`env 0`) times out and, although a retry (`env 1`) would succeed with a
route, it returns absent.  The same environment under `fix_missing_path`'s
fetcher retries and succeeds — the claimed retry behaviour belongs to that
fetcher only. -/
theorem c5_counterexample :
    (Round1.get_osrm_route emptyCache ("K")
        (fun i => if i = 0 then Attempt.timeout else Attempt.resp 200 [c3Raw])).1 =
      none ∧
    (FixMissingPath.get_osrm_route
        (fun i => if i = 0 then Attempt.timeout else Attempt.resp 200 [c3Raw])).1 =
      some (mkFetchResult c3Raw) :=
  ⟨rfl, rfl⟩

/-- C5 amended: only `fix_missing_path.get_osrm_route` retries on timeout —
up to 3 attempts with backoff sleeps `(attempt_index) * 2` between attempts
(`[2, 4]` when every attempt times out), returning absent on exhaustion.
The round1 `get_osrm_route` performs a single attempt: a timeout (an
exception caught by its `except`) returns absent immediately, leaving the
cache untouched.  Neither fetcher aborts the run. -/
theorem c5_amended_retry_semantics :
    (∀ env : ℕ → Attempt,
      env 0 = Attempt.timeout → env 1 = Attempt.timeout → env 2 = Attempt.timeout →
      FixMissingPath.get_osrm_route env = (none, [2, 4])) ∧
    (∀ (env : ℕ → Attempt) (cache : Cache) (route_id : String),
      cache route_id = none → env 0 = Attempt.timeout →
      Round1.get_osrm_route cache route_id env = (none, cache)) := by
  constructor
  · intro env h0 h1 h2
    exact fetchLoop_all_timeout env h0 h1 h2
  · intro env cache route_id hc h0
    unfold Round1.get_osrm_route
    rw [hc, h0]

theorem c5_amended_retry_semantics_witness :
    FixMissingPath.get_osrm_route (fun _ => Attempt.timeout) = (none, [2, 4]) ∧
    Round1.get_osrm_route emptyCache ("T") (fun _ => Attempt.timeout) =
      (none, emptyCache) :=
  ⟨c5_amended_retry_semantics.1 (fun _ => Attempt.timeout) rfl rfl rfl,
    c5_amended_retry_semantics.2 (fun _ => Attempt.timeout) emptyCache ("T") rfl rfl⟩

/-- C10: a failed fetch leaves `ROUTE_CACHE` untouched — an entry is written
only by a successful fetch, and only under the fetched key.  In particular
the cache never records a negative result (its value type has no absent
marker), so a previously failed route is attempted again on a later run. -/
theorem c10_failed_fetch_leaves_cache (cache : Cache) (route_id : String)
    (env : ℕ → Attempt) :
    ((Round1.get_osrm_route cache route_id env).1 = none →
      (Round1.get_osrm_route cache route_id env).2 = cache) ∧
    (∀ k, (Round1.get_osrm_route cache route_id env).2 k ≠ cache k →
      (Round1.get_osrm_route cache route_id env).1 ≠ none ∧ k = route_id) := by
  cases hcc : cache route_id with
  | some cached =>
    have he : Round1.get_osrm_route cache route_id env = (some cached, cache) := by
      unfold Round1.get_osrm_route
      rw [hcc]
    rw [he]
    exact ⟨fun _ => rfl, fun k hk => absurd rfl hk⟩
  | none =>
    cases henv : env 0 with
    | timeout =>
      have he : Round1.get_osrm_route cache route_id env = (none, cache) := by
        unfold Round1.get_osrm_route
        rw [hcc, henv]
      rw [he]
      exact ⟨fun _ => rfl, fun k hk => absurd rfl hk⟩
    | exn =>
      have he : Round1.get_osrm_route cache route_id env = (none, cache) := by
        unfold Round1.get_osrm_route
        rw [hcc, henv]
      rw [he]
      exact ⟨fun _ => rfl, fun k hk => absurd rfl hk⟩
    | resp status routes =>
      by_cases hok : status < 400
      · cases routes with
        | nil =>
          have he : Round1.get_osrm_route cache route_id env = (none, cache) := by
            unfold Round1.get_osrm_route
            rw [hcc, henv]
            exact if_pos hok
          rw [he]
          exact ⟨fun _ => rfl, fun k hk => absurd rfl hk⟩
        | cons r rs =>
          have he : Round1.get_osrm_route cache route_id env =
              (some (mkFetchResult r),
                Cache.insert cache route_id (mkFetchResult r)) := by
            unfold Round1.get_osrm_route
            rw [hcc, henv]
            exact if_pos hok
          rw [he]
          constructor
          · intro hx
            exact Option.noConfusion hx
          · intro k hk
            constructor
            · intro hx
              exact Option.noConfusion hx
            · by_contra hkr
              apply hk
              show (if k = route_id then some (mkFetchResult r) else cache k) = cache k
              rw [if_neg hkr]
      · have he : Round1.get_osrm_route cache route_id env = (none, cache) := by
          unfold Round1.get_osrm_route
          rw [hcc, henv]
          exact if_neg hok
        rw [he]
        exact ⟨fun _ => rfl, fun k hk => absurd rfl hk⟩

theorem c10_failed_fetch_leaves_cache_witness :
    (Round1.get_osrm_route emptyCache ("K") (fun _ => Attempt.exn)).1 = none ∧
    (Round1.get_osrm_route emptyCache ("K") (fun _ => Attempt.exn)).2 = emptyCache :=
  ⟨rfl, (c10_failed_fetch_leaves_cache emptyCache ("K") (fun _ => Attempt.exn)).1 rfl⟩

/-- C3 fails as stated: the fetcher itself mutates the cache.  On a
successful fetch of an uncached key, `get_osrm_route` (round1 line 210)
writes the result into `ROUTE_CACHE` before returning — here the key `"K"`
is empty before the call and populated after it. -/
theorem c3_counterexample :
    (Round1.get_osrm_route emptyCache ("K")
        (fun _ => Attempt.resp 200 [c3Raw])).2 ("K") ≠ emptyCache ("K") := by
  intro h
  exact Option.noConfusion h

/-- C3 amended: on a successful fetch of an uncached key the fetcher itself
writes the entry into `ROUTE_CACHE` (the orchestrator performs no cache
write), and the entry stored is the raw, *unsimplified* result: its `path`
is exactly `routes[0].geometry.coordinates`.  Simplification is applied by
the orchestrator only to the copy placed on the route dict. -/
theorem c3_amended_fetcher_owns_cache_write (cache : Cache) (route_id : String)
    (env : ℕ → Attempt) (status : ℕ) (r : RawRoute) (rest : List RawRoute)
    (hmiss : cache route_id = none) (henv : env 0 = Attempt.resp status (r :: rest))
    (hok : status < 400) :
    Round1.get_osrm_route cache route_id env =
      (some (mkFetchResult r), Cache.insert cache route_id (mkFetchResult r)) ∧
    Cache.insert cache route_id (mkFetchResult r) route_id = some (mkFetchResult r) ∧
    (mkFetchResult r).path = r.coordinates := by
  refine ⟨?_, ?_, rfl⟩
  · unfold Round1.get_osrm_route
    rw [hmiss, henv]
    exact if_pos hok
  · show (if route_id = route_id then some (mkFetchResult r) else cache route_id) =
      some (mkFetchResult r)
    rw [if_pos rfl]

theorem c3_amended_fetcher_owns_cache_write_witness :
    emptyCache ("K") = none ∧
    Round1.get_osrm_route emptyCache ("K") (fun _ => Attempt.resp 200 [c3Raw]) =
      (some (mkFetchResult c3Raw),
        Cache.insert emptyCache ("K") (mkFetchResult c3Raw)) ∧
    Cache.insert emptyCache ("K") (mkFetchResult c3Raw) ("K") =
      some (mkFetchResult c3Raw) ∧
    (mkFetchResult c3Raw).path = c3Raw.coordinates :=
  ⟨rfl, (c3_amended_fetcher_owns_cache_write emptyCache ("K")
      (fun _ => Attempt.resp 200 [c3Raw]) 200 c3Raw [] rfl rfl (by decide))⟩

/-- C1 fails as stated: the cache key (round1 line 868) is built from the
source, waypoint and destination *names*, not from the rounded coordinates.
`c1TaskA` and `c1TaskB` have identical (hence identically rounded)
source/destination coordinates and the same waypoint, yet their keys differ
because their source names differ. -/
theorem c1_counterexample :
    round1dp c1TaskA.source.coordinates.1 = round1dp c1TaskB.source.coordinates.1 ∧
    round1dp c1TaskA.source.coordinates.2 = round1dp c1TaskB.source.coordinates.2 ∧
    round1dp c1TaskA.destination.coordinates.1 =
      round1dp c1TaskB.destination.coordinates.1 ∧
    round1dp c1TaskA.destination.coordinates.2 =
      round1dp c1TaskB.destination.coordinates.2 ∧
    c1TaskA.via_city = c1TaskB.via_city ∧
    route_id_of c1TaskA viaKumasi ≠ route_id_of c1TaskB viaKumasi := by
  refine ⟨rfl, rfl, rfl, rfl, rfl, ?_⟩
  intro h
  exact absurd h (by decide)

/-- C1 amended: the cache key under which `get_osrm_route` consults and
writes `ROUTE_CACHE` is derived deterministically from the source name,
waypoint name and destination name (coordinates play no role): two tasks
with identical names map to the same key, and once the key is cached a
second lookup returns the cached entry with no cache change and a result
independent of the network environment — the two tasks share one fetch. -/
theorem c1_amended_key_from_names (r₁ r₂ : Route) (v₁ v₂ : ViaCity)
    (hs : r₁.source.name = r₂.source.name) (hv : v₁.name = v₂.name)
    (hd : r₁.destination.name = r₂.destination.name) :
    route_id_of r₁ v₁ = route_id_of r₂ v₂ ∧
    ∀ (cache : Cache) (res : FetchResult) (env : ℕ → Attempt),
      cache (route_id_of r₂ v₂) = some res →
      Round1.get_osrm_route cache (route_id_of r₂ v₂) env = (some res, cache) := by
  constructor
  · unfold route_id_of
    rw [hs, hv, hd]
  · intro cache res env hc
    unfold Round1.get_osrm_route
    rw [hc]

theorem c1_amended_key_from_names_witness :
    route_id_of c1TaskA viaKumasi = route_id_of c1TaskC viaKumasi ∧
    Round1.get_osrm_route
        (Cache.insert emptyCache (route_id_of c1TaskC viaKumasi) c2Entry)
        (route_id_of c1TaskC viaKumasi) (fun _ => Attempt.exn) =
      (some c2Entry,
        Cache.insert emptyCache (route_id_of c1TaskC viaKumasi) c2Entry) :=
  ⟨(c1_amended_key_from_names c1TaskA c1TaskC viaKumasi viaKumasi rfl rfl rfl).1,
    (c1_amended_key_from_names c1TaskA c1TaskC viaKumasi viaKumasi rfl rfl rfl).2
      (Cache.insert emptyCache (route_id_of c1TaskC viaKumasi) c2Entry) c2Entry
      (fun _ => Attempt.exn)
      (by
        show (if route_id_of c1TaskC viaKumasi = route_id_of c1TaskC viaKumasi
          then some c2Entry else none) = some c2Entry
        rw [if_pos rfl])⟩

/-- C2 fails in its second half: a task skipped by the resume check
(`idx <= start_from`, round1 lines 846-851) is *not* checked against
`ROUTE_CACHE` — the loop only tests `'path' in route` and moves on.  Here the
skipped task's key is present in the cache, yet no cache lookup happens and
its route comes through without the cached path. -/
theorem c2_counterexample :
    c2Cache (route_id_of c2Task c2Via) = some c2Entry ∧
    (1 : ℕ) ≤ 1 ∧
    (processTask c2Cache 1 1 c2Task (fun _ => Attempt.exn)).checkedCache = false ∧
    (processTask c2Cache 1 1 c2Task (fun _ => Attempt.exn)).route = c2Task := by
  refine ⟨?_, le_refl 1, rfl, rfl⟩
  show (if route_id_of c2Task c2Via = route_id_of c2Task c2Via
    then some c2Entry else none) = some c2Entry
  rw [if_pos rfl]

/-- C2 amended: on resume, every task whose 1-based index is at most the
loaded `processed` count is skipped without fetching — but also without any
`RouteCache` lookup: the loop body leaves the route and the cache untouched,
counts the task as a success exactly when the in-memory route dict already
carries a `'path'` key, and moves on.  Already-fetched results survive only
because the persisted cache file itself is kept, not because skipped tasks
are re-checked against it. -/
theorem c2_amended_skip_is_blind (cache : Cache) (start_from idx : ℕ)
    (r : Route) (env : ℕ → Attempt) (h : idx ≤ start_from) :
    processTask cache start_from idx r env =
      { route := r, cache := cache, kind := StepKind.skippedResume
        checkedCache := false
        successDelta := if r.path.isSome then 1 else 0, failDelta := 0 } := by
  unfold processTask
  rw [if_pos h]

theorem c2_amended_skip_is_blind_witness :
    (1 : ℕ) ≤ 1 ∧
    processTask c2Cache 1 1 c2Task (fun _ => Attempt.exn) =
      { route := c2Task, cache := c2Cache, kind := StepKind.skippedResume
        checkedCache := false
        successDelta := if c2Task.path.isSome then 1 else 0, failDelta := 0 } :=
  ⟨le_refl 1, c2_amended_skip_is_blind c2Cache 1 1 c2Task (fun _ => Attempt.exn) (le_refl 1)⟩

/-- C4 fails as stated: `load_route_cache` (round1 lines 43-50) has no
`try`/`except` — an existing but unreadable or corrupt cache file makes
`json.load` raise, and the exception propagates and aborts the pipeline
instead of degrading to an empty cache with a warning. -/
theorem c4_counterexample :
    load_route_cache LoadOutcome.corrupt = Except.error () ∧
    load_route_cache LoadOutcome.corrupt ≠ Except.ok emptyCache :=
  ⟨rfl, fun h => Except.noConfusion h⟩

/-- C4 amended: an absent cache file yields the empty in-memory cache (the
module-level `ROUTE_CACHE = \x7b\x7d` is returned untouched) and a successful read
yields the stored map — but a failed read (unreadable or corrupt file) is
not caught: the exception propagates out of `load_route_cache` and aborts
the enrichment run. -/
theorem c4_amended_load_semantics :
    load_route_cache LoadOutcome.absent = Except.ok emptyCache ∧
    (∀ m : Cache, load_route_cache (LoadOutcome.stored m) = Except.ok m) ∧
    load_route_cache LoadOutcome.corrupt = Except.error () :=
  ⟨rfl, fun _ => rfl, rfl⟩

theorem applyRouteYear_isSome {α : Type} (st : Store α) (k : HierKey)
    (p : List Point) (dk dh : Option ℚ) (y y2 : Int) (k2 : HierKey) :
    ((applyRouteYear st k p dk dh y) y2 k2).isSome = (st y2 k2).isSome := by
  unfold applyRouteYear
  cases he : st y k with
  | none => rfl
  | some e =>
    show (if y2 = y ∧ k2 = k then some (patchEntry e p dk dh)
      else st y2 k2).isSome = (st y2 k2).isSome
    by_cases hyk : y2 = y ∧ k2 = k
    · rw [if_pos hyk]
      obtain ⟨hy, hk⟩ := hyk
      subst hy
      subst hk
      rw [he]
      rfl
    · rw [if_neg hyk]

theorem applyRouteYear_core {α : Type} (st : Store α) (k : HierKey)
    (p : List Point) (dk dh : Option ℚ) (y y2 : Int) (k2 : HierKey) :
    Option.map HierEntry.core ((applyRouteYear st k p dk dh y) y2 k2) =
      Option.map HierEntry.core (st y2 k2) := by
  unfold applyRouteYear
  cases he : st y k with
  | none => rfl
  | some e =>
    show Option.map HierEntry.core
        (if y2 = y ∧ k2 = k then some (patchEntry e p dk dh) else st y2 k2) =
      Option.map HierEntry.core (st y2 k2)
    by_cases hyk : y2 = y ∧ k2 = k
    · rw [if_pos hyk]
      obtain ⟨hy, hk⟩ := hyk
      subst hy
      subst hk
      rw [he]
      rfl
    · rw [if_neg hyk]

theorem applyRouteYear_other {α : Type} (st : Store α) (k : HierKey)
    (p : List Point) (dk dh : Option ℚ) (y y2 : Int) (k2 : HierKey)
    (h : y2 ≠ y) :
    (applyRouteYear st k p dk dh y) y2 k2 = st y2 k2 := by
  unfold applyRouteYear
  cases he : st y k with
  | none => rfl
  | some e =>
    show (if y2 = y ∧ k2 = k then some (patchEntry e p dk dh)
      else st y2 k2) = st y2 k2
    rw [if_neg (fun hc => h hc.1)]

theorem applyRouteYear_hit {α : Type} (st : Store α) (k : HierKey)
    (p : List Point) (dk dh : Option ℚ) (y : Int) (e : HierEntry α)
    (he : st y k = some e) :
    (applyRouteYear st k p dk dh y) y k = some (patchEntry e p dk dh) := by
  unfold applyRouteYear
  rw [he]
  show (if y = y ∧ k = k then some (patchEntry e p dk dh) else st y k) =
    some (patchEntry e p dk dh)
  rw [if_pos ⟨rfl, rfl⟩]

theorem applyYears_isSome {α : Type} (k : HierKey) (p : List Point)
    (dk dh : Option ℚ) :
    ∀ (ys : List Int) (st : Store α) (y2 : Int) (k2 : HierKey),
      ((ys.foldl (fun st2 y => applyRouteYear st2 k p dk dh y) st) y2 k2).isSome =
        (st y2 k2).isSome := by
  intro ys
  induction ys with
  | nil => intro st y2 k2; rfl
  | cons y0 tl ih =>
    intro st y2 k2
    rw [List.foldl_cons, ih, applyRouteYear_isSome]

theorem applyYears_core {α : Type} (k : HierKey) (p : List Point)
    (dk dh : Option ℚ) :
    ∀ (ys : List Int) (st : Store α) (y2 : Int) (k2 : HierKey),
      Option.map HierEntry.core
          ((ys.foldl (fun st2 y => applyRouteYear st2 k p dk dh y) st) y2 k2) =
        Option.map HierEntry.core (st y2 k2) := by
  intro ys
  induction ys with
  | nil => intro st y2 k2; rfl
  | cons y0 tl ih =>
    intro st y2 k2
    rw [List.foldl_cons, ih, applyRouteYear_core]

theorem applyYears_untouched {α : Type} (k : HierKey) (p : List Point)
    (dk dh : Option ℚ) :
    ∀ (ys : List Int) (st : Store α) (y : Int) (k2 : HierKey), y ∉ ys →
      (ys.foldl (fun st2 y0 => applyRouteYear st2 k p dk dh y0) st) y k2 = st y k2 := by
  intro ys
  induction ys with
  | nil => intro st y k2 _; rfl
  | cons z tz ih =>
    intro st y k2 hz
    have hyz : y ≠ z := fun hc => hz (by rw [hc]; exact List.mem_cons_self z tz)
    rw [List.foldl_cons, ih (applyRouteYear st k p dk dh z) y k2
      (fun hc => hz (List.mem_cons_of_mem z hc))]
    exact applyRouteYear_other st k p dk dh z y k2 hyz

theorem applyYears_path {α : Type} (k : HierKey) (p : List Point)
    (dk dh : Option ℚ) :
    ∀ (ys : List Int) (st : Store α) (y : Int),
      y ∈ ys → (st y k).isSome = true →
      ∃ e0, (ys.foldl (fun st2 y0 => applyRouteYear st2 k p dk dh y0) st) y k =
        some (patchEntry e0 p dk dh) := by
  intro ys
  induction ys with
  | nil =>
    intro st y hy
    exact absurd hy (List.not_mem_nil y)
  | cons y0 tl ih =>
    intro st y hy hs
    rw [List.foldl_cons]
    by_cases hmem : y ∈ tl
    · exact ih (applyRouteYear st k p dk dh y0) y hmem
        (by rw [applyRouteYear_isSome]; exact hs)
    · have hy0 : y = y0 := by
        rcases List.mem_cons.mp hy with h | h
        · exact h
        · exact absurd h hmem
      subst hy0
      obtain ⟨e, he⟩ := Option.isSome_iff_exists.mp hs
      rw [applyYears_untouched k p dk dh tl _ y k hmem,
        applyRouteYear_hit st k p dk dh y e he]
      exact ⟨e, rfl⟩

theorem applyRoute_isSome {α : Type} (st : Store α) (r : Route) (y2 : Int)
    (k2 : HierKey) :
    ((applyRoute st r) y2 k2).isSome = (st y2 k2).isSome := by
  unfold applyRoute
  cases hp : r.path with
  | none => rfl
  | some l =>
    cases l with
    | nil => rfl
    | cons q qs =>
      exact applyYears_isSome (hier_route_id r) (q :: qs) r.distance_km
        r.duration_hours r.years st y2 k2

theorem applyRoute_core {α : Type} (st : Store α) (r : Route) (y2 : Int)
    (k2 : HierKey) :
    Option.map HierEntry.core ((applyRoute st r) y2 k2) =
      Option.map HierEntry.core (st y2 k2) := by
  unfold applyRoute
  cases hp : r.path with
  | none => rfl
  | some l =>
    cases l with
    | nil => rfl
    | cons q qs =>
      exact applyYears_core (hier_route_id r) (q :: qs) r.distance_km
        r.duration_hours r.years st y2 k2

theorem applyRoute_path_written {α : Type} (st : Store α) (r : Route)
    (p : List Point) (hp : r.path = some p) (hne : p ≠ []) (y : Int)
    (hy : y ∈ r.years) (hs : (st y (hier_route_id r)).isSome = true) :
    ∃ e0, (applyRoute st r) y (hier_route_id r) =
      some (patchEntry e0 p r.distance_km r.duration_hours) := by
  unfold applyRoute
  rw [hp]
  cases p with
  | nil => exact absurd rfl hne
  | cons q qs =>
    exact applyYears_path (hier_route_id r) (q :: qs) r.distance_km
      r.duration_hours r.years st y hy hs

theorem mergePaths_isSome {α : Type} :
    ∀ (routes : List Route) (st : Store α) (y2 : Int) (k2 : HierKey),
      ((mergePaths st routes) y2 k2).isSome = (st y2 k2).isSome := by
  intro routes
  induction routes with
  | nil => intro st y2 k2; rfl
  | cons r tl ih =>
    intro st y2 k2
    rw [show mergePaths st (r :: tl) = mergePaths (applyRoute st r) tl from rfl,
      ih, applyRoute_isSome]

theorem mergePaths_core {α : Type} :
    ∀ (routes : List Route) (st : Store α) (y2 : Int) (k2 : HierKey),
      Option.map HierEntry.core ((mergePaths st routes) y2 k2) =
        Option.map HierEntry.core (st y2 k2) := by
  intro routes
  induction routes with
  | nil => intro st y2 k2; rfl
  | cons r tl ih =>
    intro st y2 k2
    rw [show mergePaths st (r :: tl) = mergePaths (applyRoute st r) tl from rfl,
      ih, applyRoute_core]

/-- C9: the merge of fetched paths into the hierarchical year-store (round1
lines 961-991) only mutates the path-related fields of entries that already
exist.  It adds no year or route entry and removes none (the domain of the
store is pointwise preserved), every surviving entry keeps its non-path
fields (`core`) unchanged, and when one route carrying path `p` is applied,
every year it lists whose entry exists receives exactly `p` — a route
appearing under multiple years receives the same path in each. -/
theorem c9_merge_is_frame {α : Type} (st : Store α) (routes : List Route) :
    (∀ (y : Int) (k : HierKey),
      ((mergePaths st routes) y k).isSome = (st y k).isSome) ∧
    (∀ (y : Int) (k : HierKey),
      Option.map HierEntry.core ((mergePaths st routes) y k) =
        Option.map HierEntry.core (st y k)) ∧
    (∀ (r : Route) (p : List Point) (y₁ y₂ : Int) (e₁ e₂ : HierEntry α),
      r.path = some p → p ≠ [] → y₁ ∈ r.years → y₂ ∈ r.years →
      (applyRoute st r) y₁ (hier_route_id r) = some e₁ →
      (applyRoute st r) y₂ (hier_route_id r) = some e₂ →
      e₁.path = some p ∧ e₂.path = some p) := by
  refine ⟨mergePaths_isSome routes st, mergePaths_core routes st, ?_⟩
  intro r p y₁ y₂ e₁ e₂ hp hne hy₁ hy₂ he₁ he₂
  have hs₁ : (st y₁ (hier_route_id r)).isSome = true := by
    rw [← applyRoute_isSome st r y₁ (hier_route_id r), he₁]
    rfl
  have hs₂ : (st y₂ (hier_route_id r)).isSome = true := by
    rw [← applyRoute_isSome st r y₂ (hier_route_id r), he₂]
    rfl
  obtain ⟨d₁, hd₁⟩ := applyRoute_path_written st r p hp hne y₁ hy₁ hs₁
  obtain ⟨d₂, hd₂⟩ := applyRoute_path_written st r p hp hne y₂ hy₂ hs₂
  rw [he₁] at hd₁
  rw [he₂] at hd₂
  constructor
  · rw [Option.some.inj hd₁]
    rfl
  · rw [Option.some.inj hd₂]
    rfl

theorem c9_merge_is_frame_witness :
    ((mergePaths c9Store [c9Route]) 2013 (hier_route_id c9Route)).isSome =
      (c9Store 2013 (hier_route_id c9Route)).isSome ∧
    Option.map HierEntry.core
        ((mergePaths c9Store [c9Route]) 2013 (hier_route_id c9Route)) =
      Option.map HierEntry.core (c9Store 2013 (hier_route_id c9Route)) ∧
    (patchEntry c9Entry0 c9Path (some 5) (some (1 / 10))).path = some c9Path ∧
    (patchEntry c9Entry0 c9Path (some 5) (some (1 / 10))).path = some c9Path := by
  have hbase₁ : c9Store 2013 (hier_route_id c9Route) = some c9Entry0 := by
    show (if ((2013 : Int) = 2013 ∨ (2013 : Int) = 2014) ∧
        hier_route_id c9Route = hier_route_id c9Route then some c9Entry0
      else none) = some c9Entry0
    rw [if_pos ⟨Or.inl rfl, rfl⟩]
  have hbase₂ : c9Store 2014 (hier_route_id c9Route) = some c9Entry0 := by
    show (if ((2014 : Int) = 2013 ∨ (2014 : Int) = 2014) ∧
        hier_route_id c9Route = hier_route_id c9Route then some c9Entry0
      else none) = some c9Entry0
    rw [if_pos ⟨Or.inr rfl, rfl⟩]
  have hfold : applyRoute c9Store c9Route =
      applyRouteYear
        (applyRouteYear c9Store (hier_route_id c9Route) c9Path (some 5)
          (some (1 / 10)) 2013)
        (hier_route_id c9Route) c9Path (some 5) (some (1 / 10)) 2014 := rfl
  have h₁ : applyRoute c9Store c9Route 2013 (hier_route_id c9Route) =
      some (patchEntry c9Entry0 c9Path (some 5) (some (1 / 10))) := by
    rw [hfold]
    rw [applyRouteYear_other _ _ _ _ _ 2014 2013 _ (by decide)]
    exact applyRouteYear_hit _ _ _ _ _ 2013 c9Entry0 hbase₁
  have h₂ : applyRoute c9Store c9Route 2014 (hier_route_id c9Route) =
      some (patchEntry c9Entry0 c9Path (some 5) (some (1 / 10))) := by
    rw [hfold]
    have hinner : (applyRouteYear c9Store (hier_route_id c9Route) c9Path (some 5)
        (some (1 / 10)) 2013) 2014 (hier_route_id c9Route) = some c9Entry0 := by
      rw [applyRouteYear_other _ _ _ _ _ 2013 2014 _ (by decide)]
      exact hbase₂
    exact applyRouteYear_hit _ _ _ _ _ 2014 c9Entry0 hinner
  have hmain := c9_merge_is_frame c9Store [c9Route]
  refine ⟨hmain.1 2013 (hier_route_id c9Route), hmain.2.1 2013 (hier_route_id c9Route), ?_⟩
  exact hmain.2.2 c9Route c9Path 2013 2014
    (patchEntry c9Entry0 c9Path (some 5) (some (1 / 10)))
    (patchEntry c9Entry0 c9Path (some 5) (some (1 / 10)))
    rfl (List.cons_ne_nil _ _) (List.mem_cons_self _ _)
    (List.mem_cons_of_mem _ (List.mem_cons_self _ _)) h₁ h₂
